import Mathlib

/-!
Verification of the log-to-ClickHouse ingestion pipeline.

This file gives a shallow embedding of the pipeline's decision core:

* the offset store and incremental reader (`src/utils/read_logs.py`:
  `get_offset`, `set_offset`, `clear_file_content`, `read_logs`);
* the schema synthesizer and join compiler (`src/utils/database.py`:
  `DATATYPE_MAPPING`, `generate_table_query`, `generate_join_query`,
  the field synthesis of `create_view_table`).

File systems are modelled as association lists from path to content;
file contents are strings of characters, one character per byte (the
logs are ASCII, so Python's byte offsets coincide with character
counts).  Python exceptions that a function catches internally are
modelled by `Option`; `ValueError`s that escape `generate_join_query`
are modelled by `Except String`.  An I/O failure injected between
opening a log file and completing the read is modelled by the
`readFails` flag of `read_logs`.
-/

set_option maxRecDepth 40000

/-- Characters treated as whitespace by Python's `str.strip`. -/
def isSpaceChar (c : Char) : Bool :=
  c == ' ' || c == '\t' || c == '\n' || c == '\r' || c == '\x0b' || c == '\x0c'

/-- Python `str.strip()`: remove whitespace from both ends. -/
def pyStrip (s : String) : String :=
  ⟨((s.data.dropWhile isSpaceChar).reverse.dropWhile isSpaceChar).reverse⟩

/-- Python `str.rstrip(", ")`: remove trailing commas and spaces. -/
def rstripCommaSpace (s : String) : String :=
  ⟨(s.data.reverse.dropWhile (fun c => c == ',' || c == ' ')).reverse⟩

/-- Python `str.rstrip()`: remove trailing whitespace. -/
def rstripWs (s : String) : String :=
  ⟨(s.data.reverse.dropWhile isSpaceChar).reverse⟩

/-- Python `sep.join(xs)`. -/
def joinSep (sep : String) : List String → String
  | [] => ""
  | [x] => x
  | x :: y :: xs => x ++ sep ++ joinSep sep (y :: xs)

/-- Python `str.split('_')` on the character list of a string:
splits at every underscore, keeping empty words. -/
def splitUnderscore : List Char → List (List Char)
  | [] => [[]]
  | c :: rest =>
    if c == '_' then [] :: splitUnderscore rest
    else
      match splitUnderscore rest with
      | [] => [[c]]
      | w :: ws => (c :: w) :: ws

/-- Helper for `splitLinesKeep`: `acc` holds the current line reversed. -/
def splitLinesAux : List Char → List Char → List String
  | [], acc => if acc.isEmpty then [] else [⟨acc.reverse⟩]
  | c :: rest, acc =>
    if c == '\n' then (⟨(c :: acc).reverse⟩ : String) :: splitLinesAux rest []
    else splitLinesAux rest (c :: acc)

/-- Python `file.readlines()`: split into lines, keeping the newline
terminator on each line; a final unterminated line is kept as is. -/
def splitLinesKeep (l : List Char) : List String :=
  splitLinesAux l []

/-- Accumulating decimal parser over a character list; fails on the
first non-digit character. -/
def digitsToNatAux : Nat → List Char → Option Nat
  | acc, [] => some acc
  | acc, c :: cs =>
    if 48 ≤ c.toNat && c.toNat ≤ 57 then digitsToNatAux (acc * 10 + (c.toNat - 48)) cs
    else none

/-- Parse a nonempty all-digit character list as a natural number. -/
def digitsToNat (l : List Char) : Option Nat :=
  if l.isEmpty then none else digitsToNatAux 0 l

/-- Python `int(s)` on an already-stripped character list: an optional
sign followed by a nonempty run of decimal digits; anything else
raises (here: `none`). -/
def pyParseIntChars : List Char → Option Int
  | [] => none
  | c :: rest =>
    if c == '-' then (digitsToNat rest).map (fun n => -(n : Int))
    else if c == '+' then (digitsToNat rest).map (fun n => (n : Int))
    else (digitsToNat (c :: rest)).map (fun n => (n : Int))

/-- Python `int(s)` on an already-stripped string. -/
def pyParseInt (s : String) : Option Int :=
  pyParseIntChars s.data

/-- Little-endian decimal digits of a natural number, with explicit
fuel so the kernel can evaluate it; `fuel = n + 1` always suffices. -/
def natToDecRevFuel : Nat → Nat → List Char
  | 0, _ => []
  | fuel + 1, n =>
    if n < 10 then [Nat.digitChar n]
    else Nat.digitChar (n % 10) :: natToDecRevFuel fuel (n / 10)

/-- Little-endian decimal digits of a natural number. -/
def natToDecRev (n : Nat) : List Char :=
  natToDecRevFuel (n + 1) n

/-- Canonical decimal rendering of a natural number, as produced by
Python's `str`. -/
def natStr (n : Nat) : String :=
  ⟨(natToDecRev n).reverse⟩

/-- Canonical decimal rendering of an integer, as produced by Python's
`str`. -/
def intStr : Int → String
  | Int.ofNat m => natStr m
  | Int.negSucc m => "-" ++ natStr (m + 1)

/-- A file system: an association list from path to file content.
A path absent from the list is an absent file. -/
abbrev FS := List (String × String)

/-- Content of the file at path `q`, if present. -/
def lookupFile : FS → String → Option String
  | [], _ => none
  | (p, c) :: rest, q => if p == q then some c else lookupFile rest q

/-- Overwrite (or create) the file at path `p` with content `c`. -/
def setFile : FS → String → String → FS
  | [], p, c => [(p, c)]
  | (q, d) :: rest, p, c =>
    if q == p then (p, c) :: rest else (q, d) :: setFile rest p c

/-- Environment model of append-only growth of a log file: append `s`
to the content of the file at `p` (absent counts as empty). -/
def appendFile (fs : FS) (p : String) (s : String) : FS :=
  setFile fs p (((lookupFile fs p).getD "") ++ s)

/-- Parse a stored offset-file content the way `get_offset` does:
absent file, empty (after strip) content or unparsable content give 0;
otherwise the parsed integer. -/
def parseOffset : Option String → Int
  | none => 0
  | some content =>
    let value := pyStrip content
    if value == "" then 0 else (pyParseInt value).getD 0

/-- Embedding of `get_offset` (src/utils/read_logs.py lines 7-28):
returns the stored offset, or 0 if the file is absent, empty or
unparsable; every exception is caught, so the function is total. -/
def get_offset (fs : FS) (file : String) : Int :=
  parseOffset (lookupFile fs file)

/-- Embedding of `set_offset` (src/utils/read_logs.py lines 31-48):
overwrites the offset file with the decimal rendering of `offset`. -/
def set_offset (fs : FS) (offset : Int) (file : String) : FS :=
  setFile fs file (intStr offset)

/-- Embedding of `clear_file_content` (src/utils/read_logs.py lines
51-67): truncates the file at `file_path` to empty content. -/
def clear_file_content (fs : FS) (file_path : String) : FS :=
  setFile fs file_path ""

/-- Embedding of `read_logs` (src/utils/read_logs.py lines 70-100).
`ofiles` models the `OFFSET_FILES` dictionary (`none` = key absent;
`some ""` = a falsy configured value).  `readFails = true` injects an
I/O failure after the log file has been opened but before the read
completes; the surrounding `try` turns any such failure into `None`
with the file system untouched.  On success the offset file receives
`f.tell()` after `readlines`, which is `max offset (length of file)`
(seeking past end-of-file leaves the position at the requested
offset and reads nothing). -/
def read_logs (ofiles : String → Option String) (fs : FS) (file : String)
    (source_type : String) (readFails : Bool) : Option (List String) × FS :=
  match ofiles source_type with
  | none => (none, fs)
  | some offset_file =>
    if offset_file == "" then (none, fs)
    else
      let offset := get_offset fs offset_file
      match lookupFile fs file with
      | none => (none, fs)
      | some content =>
        if readFails then (none, fs)
        else if offset < 0 then (none, fs)
        else
          let data := splitLinesKeep (content.data.drop offset.toNat)
          let newPos := max offset.toNat content.data.length
          (some data, set_offset fs (Int.ofNat newPos) offset_file)

/-- The target database name (src/app/settings.py line 62: the
`DATABASE` environment variable defaults to `default_db`; the model
fixes the environment to its defaults). -/
def DATABASE : String := "default_db"

/-- Embedding of `DATATYPE_MAPPING` (src/utils/database.py lines
26-44): pandas dtype to ClickHouse type. -/
def DATATYPE_MAPPING : List (String × String) :=
  [("int64", "Int64"),
   ("int32", "Int32"),
   ("int16", "Int16"),
   ("int8", "Int8"),
   ("uint64", "UInt64"),
   ("uint32", "UInt32"),
   ("uint16", "UInt16"),
   ("uint8", "UInt8"),
   ("float64", "Float64"),
   ("float32", "Float32"),
   ("bool", "Bool"),
   ("datetime64[ns]", "Nullable(DateTime)"),
   ("datetime64[ns, UTC]", "Nullable(DateTime)"),
   ("timedelta64[ns]", "Int64"),
   ("object", "String"),
   ("string", "String"),
   ("category", "String")]

/-- Dictionary lookup on an association list (Python `dict[k]` /
`dict.get(k)`). -/
def lookupAssoc {α : Type} : List (String × α) → String → Option α
  | [], _ => none
  | (k, v) :: rest, q => if k == q then some v else lookupAssoc rest q

/-- Per-field column definition of `generate_table_query`
(src/utils/database.py line 73): a field named `update_time` or
`timestamp` is forced to `DateTime`; otherwise the dtype is looked up
in `DATATYPE_MAPPING` with default `String`. -/
def tableField (col : String) (dtype : String) : String :=
  col ++ " " ++
    (if col == "update_time" || col == "timestamp" then "DateTime"
     else (lookupAssoc DATATYPE_MAPPING dtype).getD "String")

/-- Order-by rendering of `generate_table_query` (src/utils/database.py
lines 76-77): a list or tuple is comma-joined, a plain string is used
as is. -/
def ordByClause : String ⊕ List String → String
  | Sum.inl s => s
  | Sum.inr l => joinSep ", " l

/-- Embedding of `generate_table_query` (src/utils/database.py lines
59-89): the literal CREATE TABLE statement, whitespace of the f-string
included. -/
def generate_table_query (columns : List (String × String)) (tbl : String)
    (ord_by : String ⊕ List String) : String :=
  "\n        CREATE TABLE IF NOT EXISTS `" ++ DATABASE ++ "`.`" ++ tbl ++
    "` (\n            " ++
    joinSep ", " (columns.map (fun p => tableField p.1 p.2)) ++
    "\n        ) ENGINE = ReplacingMergeTree(update_time)\n        ORDER BY (" ++
    ordByClause ord_by ++ ")\n        "

/-- Per-field column definition of `create_view_table`
(src/utils/database.py line 231): like `tableField`, but the column
name is prefixed with its table's alias. -/
def viewField (tblAlias : String) (col : String) (dtype : String) : String :=
  tblAlias ++ "_" ++ col ++ " " ++
    (if col == "update_time" || col == "timestamp" then "DateTime"
     else (lookupAssoc DATATYPE_MAPPING dtype).getD "String")

/-- Alias derivation of `generate_join_query` (src/utils/database.py
lines 176-177): first letter of each underscore-separated word.  An
empty word makes Python's `word[0]` raise `IndexError` (caught by the
surrounding `try`), modelled here as `none`. -/
def deriveAlias (tbl : String) : Option String :=
  let ws := splitUnderscore tbl.data
  if ws.any (fun w => w.isEmpty) then none
  else some ⟨(ws.map (fun w => w.take 1)).flatten⟩

/-- The `table_alias` dictionary comprehension of `generate_join_query`:
alias of every table, in table order; `none` if any alias derivation
raises. -/
def aliasPairs : List (String × List String) → Option (List (String × String))
  | [] => some []
  | (t, _) :: rest =>
    match deriveAlias t, aliasPairs rest with
    | some a, some m => some ((t, a) :: m)
    | _, _ => none

/-- Replace each table of `tables_columns` by its alias, looked up in
the alias dictionary (`table_alias[tbl]` in the SELECT loop of
`generate_join_query`; always succeeds there since the dictionary was
built over the same keys). -/
def withAliasesOf (aliases : List (String × String)) :
    List (String × List String) → Option (List (String × List String))
  | [] => some []
  | (t, cols) :: rest =>
    match lookupAssoc aliases t, withAliasesOf aliases rest with
    | some a, some r => some ((a, cols) :: r)
    | _, _ => none

/-- The LEFT JOIN loop of `generate_join_query` (src/utils/database.py
lines 188-192): one clause per edge, in the given order; a table
missing from the alias dictionary makes Python raise `KeyError`
(caught by the surrounding `try`), modelled as `none`. -/
def joinClauses (aliases : List (String × String)) (q : String) :
    List ((String × String) × String) → Option String
  | [] => some q
  | ((tbl1, tbl2), col) :: rest =>
    match lookupAssoc aliases tbl1, lookupAssoc aliases tbl2 with
    | some a1, some a2 =>
      joinClauses aliases
        (q ++ " LEFT JOIN " ++ DATABASE ++ "." ++ tbl2 ++ " AS " ++ a2 ++
          " ON " ++ a1 ++ "." ++ col ++ " = " ++ a2 ++ "." ++ col) rest
    | _, _ => none

/-- Body of the `try` block of `generate_join_query` (src/utils/database.py
lines 174-196): `none` models an exception caught by the `except`
branch. -/
def buildJoinQuery (tables_columns : List (String × List String))
    (from_table : String) (join_column : List ((String × String) × String)) :
    Option String :=
  match aliasPairs tables_columns with
  | none => none
  | some aliases =>
    match withAliasesOf aliases tables_columns with
    | none => none
    | some wa =>
      let sel := rstripCommaSpace
        (wa.foldl
          (fun q p =>
            q ++ joinSep ", "
              (p.2.map (fun c => p.1 ++ "." ++ c ++ " AS " ++ p.1 ++ "_" ++ c)) ++
            ", ")
          "SELECT ")
      match lookupAssoc aliases from_table with
      | none => none
      | some fa =>
        match joinClauses aliases
            (sel ++ " FROM " ++ DATABASE ++ "." ++ from_table ++ " AS " ++ fa)
            join_column with
        | none => none
        | some q => some (rstripWs q)

/-- Embedding of `generate_join_query` (src/utils/database.py lines
145-200).  The two explicit precondition checks raise `ValueError`
(modelled as `Except.error` with the source's message); everything
inside the `try` block that raises is caught by the `except` branch,
which returns the empty string. -/
def generate_join_query (tables_columns : List (String × List String))
    (from_table : String) (join_column : List ((String × String) × String)) :
    Except String String :=
  if tables_columns.length ≤ 1 then
    Except.error "At least two tables are required for a JOIN query."
  else if from_table ∉ tables_columns.map Prod.fst then
    Except.error "From table is not in tables list"
  else
    match buildJoinQuery tables_columns from_table join_column with
    | some q => Except.ok q
    | none => Except.ok ""

/-- A one-source `OFFSET_FILES` configuration: source type `src` has
offset file `off`; the log file lives at path `log`. -/
def OFS : String → Option String :=
  fun s => if s == "src" then some "off" else none

/-- Initial state of a fresh source: empty log file, empty offset
file (`get_offset` reads it as 0). -/
def initFS : FS := [("log", ""), ("off", "")]

/-- One ingestion round per list element: the environment appends the
element to the log file, then `read_logs` consumes the new bytes.  The
trace records each read's result together with the file system after
it. -/
def runReads (fs : FS) : List String → List (Option (List String) × FS)
  | [] => []
  | a :: rest =>
    let fs1 := appendFile fs "log" a
    let out := read_logs OFS fs1 "log" "src" false
    out :: runReads out.2 rest

/-- Bytes consumed by one read: the total length of the returned
lines (0 for a failed read). -/
def bytesOf : Option (List String) → Nat
  | none => 0
  | some ls => (ls.map String.length).sum

/-- Running totals of a list of byte counts, starting from `acc`. -/
def cumSum : List Nat → Nat → List Nat
  | [], _ => []
  | a :: rest, acc => (acc + a) :: cumSum rest (acc + a)

/-! ### Helper lemmas -/

theorem str_append_assoc (a b c : String) : a ++ b ++ c = a ++ (b ++ c) := by
  cases a; cases b; cases c
  show String.mk _ = String.mk _
  simp [String.append, List.append_assoc]

theorem lookupFile_setFile_self (fs : FS) (p c : String) :
    lookupFile (setFile fs p c) p = some c := by
  induction fs with
  | nil => simp [setFile, lookupFile]
  | cons hd tl ih =>
    obtain ⟨q, d⟩ := hd
    by_cases h : q = p
    · simp [setFile, lookupFile, h]
    · simp only [setFile, beq_iff_eq, h, if_false, lookupFile, ih]

theorem lookupFile_setFile_ne (fs : FS) (p q c : String) (h : p ≠ q) :
    lookupFile (setFile fs p c) q = lookupFile fs q := by
  induction fs with
  | nil => simp [setFile, lookupFile, h]
  | cons hd tl ih =>
    obtain ⟨r, d⟩ := hd
    by_cases hr : r = p
    · subst hr
      simp [setFile, lookupFile, h]
    · simp only [setFile, beq_iff_eq, hr, if_false, lookupFile, ih]

theorem get_offset_setFile_ne (fs : FS) (p q c : String) (h : p ≠ q) :
    get_offset (setFile fs p c) q = get_offset fs q := by
  simp [get_offset, lookupFile_setFile_ne fs p q c h]

theorem digit_not_space {c : Char} (h1 : 48 ≤ c.toNat) (h2 : c.toNat ≤ 57) :
    isSpaceChar c = false := by
  simp only [isSpaceChar, Bool.or_eq_false_iff, beq_eq_false_iff_ne, ne_eq]
  refine ⟨⟨⟨⟨⟨?_, ?_⟩, ?_⟩, ?_⟩, ?_⟩, ?_⟩ <;>
    rintro rfl <;> revert h1 h2 <;> decide

theorem digitChar_toNat {n : Nat} (h : n < 10) :
    (Nat.digitChar n).toNat = 48 + n := by
  interval_cases n <;> decide

theorem natToDecRevFuel_digits :
    ∀ (fuel n : Nat), n < fuel →
      ∀ c ∈ natToDecRevFuel fuel n, 48 ≤ c.toNat ∧ c.toNat ≤ 57 := by
  intro fuel
  induction fuel with
  | zero => omega
  | succ m ih =>
    intro n hn c hc
    by_cases h10 : n < 10
    · simp only [natToDecRevFuel, if_pos h10, List.mem_singleton] at hc
      subst hc
      rw [digitChar_toNat h10]
      omega
    · simp only [natToDecRevFuel, if_neg h10, List.mem_cons] at hc
      rcases hc with hc | hc
      · subst hc
        rw [digitChar_toNat (Nat.mod_lt n (by norm_num))]
        have := Nat.mod_lt n (show 0 < 10 by norm_num)
        omega
      · exact ih (n / 10) (by omega) c hc

theorem digitsToNatAux_append_some {l : List Char} {acc m : Nat}
    (h : digitsToNatAux acc l = some m) (c : Char) :
    digitsToNatAux acc (l ++ [c]) =
      if 48 ≤ c.toNat && c.toNat ≤ 57 then some (m * 10 + (c.toNat - 48))
      else none := by
  induction l generalizing acc with
  | nil =>
    simp only [digitsToNatAux, Option.some.injEq] at h
    subst h
    simp only [List.nil_append, digitsToNatAux]
  | cons d ds ih =>
    simp only [digitsToNatAux] at h
    by_cases hd : (48 ≤ d.toNat && d.toNat ≤ 57) = true
    · rw [if_pos hd] at h
      simp only [List.cons_append, digitsToNatAux, if_pos hd]
      exact ih h
    · rw [if_neg hd] at h
      exact absurd h (by simp)

theorem natToDecRevFuel_val :
    ∀ (fuel n : Nat), n < fuel → ∀ acc,
      digitsToNatAux acc ((natToDecRevFuel fuel n).reverse) =
        some (acc * 10 ^ (natToDecRevFuel fuel n).length + n) := by
  intro fuel
  induction fuel with
  | zero => omega
  | succ fu ih =>
    intro n hn acc
    by_cases h10 : n < 10
    · simp only [natToDecRevFuel, if_pos h10, List.reverse_singleton,
        List.length_singleton, digitsToNatAux]
      rw [digitChar_toNat h10]
      rw [if_pos (by simp only [decide_eq_true_eq, Bool.and_eq_true]; omega)]
      simp only [digitsToNatAux, Option.some.injEq]
      omega
    · have hdiv : n / 10 < fu := by
        have h1 : n / 10 < n := Nat.div_lt_self (by omega) (by norm_num)
        omega
      have hm : n % 10 < 10 := Nat.mod_lt n (by norm_num)
      simp only [natToDecRevFuel, if_neg h10, List.reverse_cons]
      rw [digitsToNatAux_append_some (ih (n / 10) hdiv acc)]
      rw [digitChar_toNat hm]
      rw [if_pos (by simp only [decide_eq_true_eq, Bool.and_eq_true]; omega)]
      simp only [List.length_cons, pow_succ, Option.some.injEq]
      have h48 : 48 + n % 10 - 48 = n % 10 := by omega
      rw [h48, ← mul_assoc]
      generalize acc * 10 ^ (natToDecRevFuel fu (n / 10)).length = A
      omega

theorem natToDecRevFuel_ne_nil (fuel n : Nat) (h : n < fuel) :
    natToDecRevFuel fuel n ≠ [] := by
  cases fuel with
  | zero => omega
  | succ m =>
    by_cases h10 : n < 10 <;> simp [natToDecRevFuel, h10]

theorem digitsToNat_natToDecRev (n : Nat) :
    digitsToNat (natToDecRev n).reverse = some n := by
  have hne : natToDecRevFuel (n + 1) n ≠ [] := natToDecRevFuel_ne_nil _ _ (by omega)
  have hval := natToDecRevFuel_val (n + 1) n (by omega) 0
  show digitsToNat (natToDecRevFuel (n + 1) n).reverse = some n
  unfold digitsToNat
  rw [if_neg (by simp [List.isEmpty_iff, hne]), hval]
  simp

theorem natStr_data (n : Nat) : (natStr n).data = (natToDecRev n).reverse := rfl

theorem natStr_digits (n : Nat) :
    ∀ c ∈ (natStr n).data, 48 ≤ c.toNat ∧ c.toNat ≤ 57 := by
  intro c hc
  rw [natStr_data, List.mem_reverse] at hc
  exact natToDecRevFuel_digits (n + 1) n (by omega) c hc

theorem dropWhile_eq_self_of_false {p : Char → Bool} :
    ∀ {l : List Char}, (∀ c ∈ l, p c = false) → l.dropWhile p = l
  | [], _ => rfl
  | c :: cs, h => by
    have hc := h c (List.mem_cons_self c cs)
    simp [List.dropWhile, hc]

theorem pyStrip_natStr (n : Nat) : pyStrip (natStr n) = natStr n := by
  have hd : ∀ c ∈ (natStr n).data, isSpaceChar c = false := fun c hc =>
    digit_not_space (natStr_digits n c hc).1 (natStr_digits n c hc).2
  unfold pyStrip
  rw [dropWhile_eq_self_of_false hd,
    dropWhile_eq_self_of_false (fun c hc => hd c (List.mem_reverse.mp hc)),
    List.reverse_reverse]

theorem natStr_ne_empty (n : Nat) : natStr n ≠ "" := by
  intro h
  have hdata : (natStr n).data = [] := by rw [h]
  rw [natStr_data] at hdata
  exact natToDecRevFuel_ne_nil (n + 1) n (by omega) (by simpa using hdata)

theorem pyParseInt_natStr (n : Nat) : pyParseInt (natStr n) = some ((n : Nat) : Int) := by
  have hne2 : (natStr n).data ≠ [] := fun h => natStr_ne_empty n (String.ext h)
  obtain ⟨c, rest, hcons⟩ := List.exists_cons_of_ne_nil hne2
  have hcdig : 48 ≤ c.toNat ∧ c.toNat ≤ 57 :=
    natStr_digits n c (by rw [hcons]; exact List.mem_cons_self c rest)
  have hminus : (c == '-') = false := by
    simp only [beq_eq_false_iff_ne, ne_eq]
    rintro rfl
    revert hcdig
    decide
  have hplus : (c == '+') = false := by
    simp only [beq_eq_false_iff_ne, ne_eq]
    rintro rfl
    revert hcdig
    decide
  unfold pyParseInt
  rw [hcons]
  simp only [pyParseIntChars, hminus, hplus, Bool.false_eq_true, if_false]
  rw [← hcons, natStr_data, digitsToNat_natToDecRev]
  rfl

theorem get_offset_set_offset (fs : FS) (p : String) (m : Nat) :
    get_offset (set_offset fs ((m : Nat) : Int) p) p = ((m : Nat) : Int) := by
  unfold get_offset set_offset
  rw [lookupFile_setFile_self]
  have hint : intStr ((m : Nat) : Int) = natStr m := rfl
  rw [hint]
  simp only [parseOffset]
  rw [pyStrip_natStr]
  rw [if_neg (by simp [natStr_ne_empty m]), pyParseInt_natStr]
  rfl

theorem splitLinesAux_length :
    ∀ (l acc : List Char),
      ((splitLinesAux l acc).map String.length).sum = l.length + acc.length := by
  intro l
  induction l with
  | nil =>
    intro acc
    by_cases h : acc.isEmpty
    · rw [List.isEmpty_iff] at h
      simp [splitLinesAux, h]
    · simp only [splitLinesAux, if_neg h, List.map_cons, List.map_nil,
        List.sum_cons, List.sum_nil, List.length_nil]
      show (String.mk acc.reverse).length + 0 = 0 + acc.length
      simp [String.length]
  | cons c cs ih =>
    intro acc
    by_cases h : (c == '\n') = true
    · simp only [splitLinesAux, if_pos h, List.map_cons, List.sum_cons]
      have : (String.mk (c :: acc).reverse).length = acc.length + 1 := by
        simp [String.length]
      rw [this, ih []]
      simp only [List.length_cons, List.length_nil]
      omega
    · simp only [splitLinesAux, if_neg h]
      rw [ih (c :: acc)]
      simp only [List.length_cons]
      omega

theorem bytesOf_splitLinesKeep (l : List Char) :
    bytesOf (some (splitLinesKeep l)) = l.length := by
  simp only [bytesOf, splitLinesKeep]
  rw [splitLinesAux_length]
  simp

theorem str_data_append (a b : String) : (a ++ b).data = a.data ++ b.data := by
  cases a; cases b; rfl

theorem cumSum_chain (l : List Nat) : ∀ acc, List.Chain' (· ≤ ·) (acc :: cumSum l acc) := by
  induction l with
  | nil => intro acc; simp [cumSum]
  | cons a rest ih =>
    intro acc
    simp only [cumSum]
    rw [List.chain'_cons]
    exact ⟨by omega, ih (acc + a)⟩

theorem read_logs_eval (fs : FS) (c : String) (n : Nat)
    (h1 : lookupFile fs "log" = some c) (h2 : get_offset fs "off" = ((n : Nat) : Int)) :
    read_logs OFS fs "log" "src" false =
      (some (splitLinesKeep (c.data.drop n)),
        set_offset fs ((max n c.data.length : Nat) : Int) "off") := by
  have hOFS : OFS "src" = some "off" := rfl
  unfold read_logs
  rw [hOFS]
  simp only [h1, h2]
  rw [if_neg (by decide)]
  simp only [Bool.false_eq_true, if_false]
  rw [if_neg (by omega)]
  rfl

theorem runReads_spec (appends : List String) :
    ∀ (fs : FS) (c : String),
      lookupFile fs "log" = some c →
      get_offset fs "off" = ((c.data.length : Nat) : Int) →
      (∀ e ∈ runReads fs appends, e.1.isSome = true) ∧
      (runReads fs appends).map (fun e => get_offset e.2 "off") =
        (cumSum ((runReads fs appends).map (fun e => bytesOf e.1)) c.data.length).map
          (fun k => ((k : Nat) : Int)) := by
  induction appends with
  | nil =>
    intro fs c _ _
    exact ⟨by simp [runReads], by simp [runReads, cumSum]⟩
  | cons a rest ih =>
    intro fs c h1 h2
    have hlook1 : lookupFile (appendFile fs "log" a) "log" = some (c ++ a) := by
      unfold appendFile
      rw [h1]
      simp only [Option.getD_some]
      exact lookupFile_setFile_self fs "log" (c ++ a)
    have hoff1 : get_offset (appendFile fs "log" a) "off" = ((c.data.length : Nat) : Int) := by
      unfold appendFile
      rw [get_offset_setFile_ne _ _ _ _ (by decide), h2]
    have hstep := read_logs_eval (appendFile fs "log" a) (c ++ a) c.data.length hlook1 hoff1
    rw [str_data_append, List.drop_left] at hstep
    rw [List.length_append, Nat.max_eq_right (Nat.le_add_right _ _)] at hstep
    have hlook2 :
        lookupFile (read_logs OFS (appendFile fs "log" a) "log" "src" false).2 "log" =
          some (c ++ a) := by
      rw [hstep]
      show lookupFile (setFile (appendFile fs "log" a) "off" _) "log" = some (c ++ a)
      rw [lookupFile_setFile_ne _ _ _ _ (by decide)]
      exact hlook1
    have hoff2 :
        get_offset (read_logs OFS (appendFile fs "log" a) "log" "src" false).2 "off" =
          (((c ++ a).data.length : Nat) : Int) := by
      rw [hstep]
      show get_offset (set_offset (appendFile fs "log" a)
        ((c.data.length + a.data.length : Nat) : Int) "off") "off" = _
      rw [get_offset_set_offset]
      rw [str_data_append, List.length_append]
    obtain ⟨ihall, ihmap⟩ :=
      ih (read_logs OFS (appendFile fs "log" a) "log" "src" false).2 (c ++ a) hlook2 hoff2
    constructor
    · intro e he
      simp only [runReads, List.mem_cons] at he
      rcases he with he | he
      · subst he
        rw [hstep]
        rfl
      · exact ihall e he
    · show ((read_logs OFS (appendFile fs "log" a) "log" "src" false) ::
          runReads (read_logs OFS (appendFile fs "log" a) "log" "src" false).2 rest).map
            (fun e => get_offset e.2 "off") = _
      simp only [List.map_cons]
      rw [hoff2]
      show _ = (cumSum (bytesOf (read_logs OFS (appendFile fs "log" a) "log" "src" false).1 ::
          (runReads (read_logs OFS (appendFile fs "log" a) "log" "src" false).2 rest).map
            (fun e => bytesOf e.1)) c.data.length).map (fun k => ((k : Nat) : Int))
      have hbytes :
          bytesOf (read_logs OFS (appendFile fs "log" a) "log" "src" false).1 =
            a.data.length := by
        rw [hstep]
        exact bytesOf_splitLinesKeep a.data
      rw [hbytes]
      simp only [cumSum, List.map_cons]
      congr 1
      · rw [str_data_append, List.length_append]
      · rw [ihmap, str_data_append, List.length_append]

theorem aliasPairs_some (tc : List (String × List String))
    (h : ∀ p ∈ tc, (deriveAlias p.1).isSome = true) :
    ∃ m, aliasPairs tc = some m ∧
      ∀ t ∈ tc.map Prod.fst, (lookupAssoc m t).isSome = true := by
  induction tc with
  | nil => exact ⟨[], rfl, by simp⟩
  | cons p rest ih =>
    obtain ⟨t, cols⟩ := p
    have hd := h (t, cols) (List.mem_cons_self _ _)
    obtain ⟨a, ha⟩ := Option.isSome_iff_exists.mp hd
    obtain ⟨m, hm, hlook⟩ := ih (fun q hq => h q (List.mem_cons_of_mem _ hq))
    refine ⟨(t, a) :: m, ?_, ?_⟩
    · simp only [aliasPairs, ha, hm]
    · intro s hs
      by_cases hst : t = s
      · simp [lookupAssoc, hst]
      · simp only [lookupAssoc, beq_iff_eq, hst, if_false]
        simp only [List.map_cons, List.mem_cons] at hs
        rcases hs with hs | hs
        · exact absurd hs.symm hst
        · exact hlook s hs

theorem withAliasesOf_some (aliases : List (String × String)) :
    ∀ (tc : List (String × List String)),
      (∀ t ∈ tc.map Prod.fst, (lookupAssoc aliases t).isSome = true) →
      ∃ r, withAliasesOf aliases tc = some r := by
  intro tc
  induction tc with
  | nil => exact fun _ => ⟨[], rfl⟩
  | cons p rest ih =>
    intro h
    obtain ⟨t, cols⟩ := p
    obtain ⟨a, ha⟩ := Option.isSome_iff_exists.mp
      (h t (by simp))
    obtain ⟨r, hr⟩ := ih (fun s hs => h s (by simp [hs]))
    exact ⟨(a, cols) :: r, by simp only [withAliasesOf, ha, hr]⟩

theorem joinClauses_some (aliases : List (String × String))
    (jc : List ((String × String) × String))
    (h : ∀ e ∈ jc, (lookupAssoc aliases e.1.1).isSome = true ∧
      (lookupAssoc aliases e.1.2).isSome = true) :
    ∀ q, ∃ r, joinClauses aliases q jc = some r := by
  induction jc with
  | nil => exact fun q => ⟨q, rfl⟩
  | cons e rest ih =>
    intro q
    obtain ⟨⟨t1, t2⟩, col⟩ := e
    obtain ⟨hm1, hm2⟩ := h ((t1, t2), col) (List.mem_cons_self _ _)
    obtain ⟨a1, ha1⟩ := Option.isSome_iff_exists.mp hm1
    obtain ⟨a2, ha2⟩ := Option.isSome_iff_exists.mp hm2
    obtain ⟨r, hr⟩ := ih (fun e he => h e (List.mem_cons_of_mem _ he)) _
    exact ⟨r, by simp only [joinClauses, ha1, ha2]; exact hr⟩

theorem buildJoinQuery_some (tc : List (String × List String)) (ft : String)
    (jc : List ((String × String) × String))
    (halias : ∀ p ∈ tc, (deriveAlias p.1).isSome = true)
    (hft : ft ∈ tc.map Prod.fst)
    (hjc : ∀ e ∈ jc, e.1.1 ∈ tc.map Prod.fst ∧ e.1.2 ∈ tc.map Prod.fst) :
    ∃ q, buildJoinQuery tc ft jc = some q := by
  obtain ⟨m, hm, hlook⟩ := aliasPairs_some tc halias
  obtain ⟨r, hr⟩ := withAliasesOf_some m tc hlook
  obtain ⟨fa, hfa⟩ := Option.isSome_iff_exists.mp (hlook ft hft)
  obtain ⟨q, hq⟩ := joinClauses_some m jc
    (fun e he => ⟨hlook e.1.1 (hjc e he).1, hlook e.1.2 (hjc e he).2⟩)
    (rstripCommaSpace
      (r.foldl
        (fun q p =>
          q ++ joinSep ", "
            (p.2.map (fun c => p.1 ++ "." ++ c ++ " AS " ++ p.1 ++ "_" ++ c)) ++
          ", ")
        "SELECT ") ++ " FROM " ++ DATABASE ++ "." ++ ft ++ " AS " ++ fa)
  exact ⟨rstripWs q, by simp only [buildJoinQuery, hm, hr, hfa, hq]⟩

/-! ### Claims -/

/-- C1: for every read of a log source in which a failure occurs after
the log file is opened (the offset file is configured and nonempty, the
log file exists) but before the read completes, `read_logs` returns
`none` and the file system — hence the persisted offset of the source —
is exactly what it was before the attempt: the offset file is not
written. -/
theorem read_logs_failure_no_advance (ofiles : String → Option String) (fs : FS)
    (file src p c : String) (hp : ofiles src = some p) (hne : p ≠ "")
    (hc : lookupFile fs file = some c) :
    read_logs ofiles fs file src true = (none, fs) ∧
    get_offset (read_logs ofiles fs file src true).2 p = get_offset fs p := by
  have hpb : (p == "") = false := by simp [hne]
  have hmain : read_logs ofiles fs file src true = (none, fs) := by
    unfold read_logs
    rw [hp]
    simp only [hpb, Bool.false_eq_true, if_false, hc, if_true]
  exact ⟨hmain, by rw [hmain]⟩

/-- Witness for C1: a concrete failing read on a present log file with a
configured offset file leaves everything unchanged. -/
theorem read_logs_failure_no_advance_witness :
    read_logs OFS [("log", "a\n"), ("off", "0")] "log" "src" true =
      (none, [("log", "a\n"), ("off", "0")]) ∧
    get_offset (read_logs OFS [("log", "a\n"), ("off", "0")] "log" "src" true).2 "off" =
      get_offset [("log", "a\n"), ("off", "0")] "off" :=
  read_logs_failure_no_advance OFS [("log", "a\n"), ("off", "0")] "log" "src" "off"
    "a\n" rfl (by decide) rfl

/-- C2 counterexample: across two successive pipeline runs the claim
fails, because `main` (src/app/app.py lines 89-91) clears every offset
file at the end of a run.  Run 1 reads the 2-byte file and persists
offset 2, the pipeline then clears the offset file; the file grows to 4
bytes and run 2 re-reads it from 0.  Both reads succeed, the cumulative
bytes consumed are 6, yet the persisted offset is 4. -/
theorem pipeline_clear_breaks_cumulative_offset :
    let r1 := read_logs OFS [("log", "a\n"), ("off", "")] "log" "src" false
    let r2 := read_logs OFS
      (appendFile (clear_file_content r1.2 "off") "log" "b\n") "log" "src" false
    r1.1.isSome = true ∧ r2.1.isSome = true ∧
    bytesOf r1.1 + bytesOf r2.1 = 6 ∧ get_offset r2.2 "off" = 4 ∧ (4 : Int) ≠ 6 := by
  decide

/-- C2 (amended): for every sequence of successful reads of the same
log source over an append-only file with no other writer touching the
offset file between reads, every read succeeds, the persisted offset
after each read equals the cumulative number of bytes consumed, and the
sequence of persisted offsets is monotonically non-decreasing.  (Across
successive runs of `main` the cumulative-bytes equality does not hold,
because `main` clears the offset files at the end of each run.) -/
theorem offsets_monotone_cumulative (appends : List String) :
    (∀ e ∈ runReads initFS appends, e.1.isSome = true) ∧
    (runReads initFS appends).map (fun e => get_offset e.2 "off") =
      (cumSum ((runReads initFS appends).map (fun e => bytesOf e.1)) 0).map
        (fun k => ((k : Nat) : Int)) ∧
    List.Chain' (· ≤ ·) ((runReads initFS appends).map (fun e => get_offset e.2 "off")) := by
  have h := runReads_spec appends initFS "" rfl rfl
  refine ⟨h.1, by simpa using h.2, ?_⟩
  have h2 : (runReads initFS appends).map (fun e => get_offset e.2 "off") =
      (cumSum ((runReads initFS appends).map (fun e => bytesOf e.1)) 0).map
        (fun k => ((k : Nat) : Int)) := by simpa using h.2
  rw [h2]
  have hch : List.Chain' (· ≤ ·)
      (cumSum ((runReads initFS appends).map (fun e => bytesOf e.1)) 0) :=
    (cumSum_chain _ 0).tail
  exact List.chain'_map_of_chain' _ (fun a b hab => Nat.cast_le.mpr hab) hch

/-- C3 counterexample: `course_info` and `course_internal` both derive
the alias `ci`, yet `generate_join_query` emits a query (no validation
error), silently reusing the duplicated alias for both tables. -/
theorem alias_collision_emits_query :
    generate_join_query [("course_info", ["a"]), ("course_internal", ["b"])]
      "course_info" [(("course_info", "course_internal"), "a")] =
      Except.ok "SELECT ci.a AS ci_a, ci.b AS ci_b FROM default_db.course_info AS ci LEFT JOIN default_db.course_internal AS ci ON ci.a = ci.a" := by
  rfl

/-- C3 (amended): alias collisions are not detected.  Whenever the two
explicit checks pass (at least two tables, base table present) and no
internal exception fires (every join-edge table is among the tables,
no table name yields an empty underscore-word), `generate_join_query`
emits a query — there is no collision check of any kind. -/
theorem generate_join_query_no_alias_validation (tc : List (String × List String))
    (ft : String) (jc : List ((String × String) × String))
    (hlen : 1 < tc.length) (hft : ft ∈ tc.map Prod.fst)
    (halias : ∀ p ∈ tc, (deriveAlias p.1).isSome = true)
    (hjc : ∀ e ∈ jc, e.1.1 ∈ tc.map Prod.fst ∧ e.1.2 ∈ tc.map Prod.fst) :
    ∃ q, generate_join_query tc ft jc = Except.ok q := by
  obtain ⟨q, hq⟩ := buildJoinQuery_some tc ft jc halias hft hjc
  refine ⟨q, ?_⟩
  unfold generate_join_query
  rw [if_neg (by omega), if_neg (by simp [hft])]
  simp only [hq]

/-- Witness for C3: the collision instance passes all hypotheses and a
query is emitted. -/
theorem generate_join_query_no_alias_validation_witness :
    ∃ q, generate_join_query [("course_info", ["a"]), ("course_internal", ["b"])]
      "course_info" [(("course_info", "course_internal"), "a")] = Except.ok q :=
  generate_join_query_no_alias_validation
    [("course_info", ["a"]), ("course_internal", ["b"])] "course_info"
    [(("course_info", "course_internal"), "a")]
    (by decide) (by decide) (by decide) (by decide)

/-- C4: the compiled join query for base table `enrollment` (columns
`user_id`, `course_id`) joined to `course` (columns `course_id`,
`course_name`) on `course_id` selects every column qualified and
renamed with the derived aliases `e` and `c`, from `enrollment AS e`
(qualified with the database name), with exactly one LEFT JOIN of
`course AS c` on `e.course_id = c.course_id`. -/
theorem join_query_shape :
    generate_join_query
      [("enrollment", ["user_id", "course_id"]), ("course", ["course_id", "course_name"])]
      "enrollment" [(("enrollment", "course"), "course_id")] =
      Except.ok "SELECT e.user_id AS e_user_id, e.course_id AS e_course_id, c.course_id AS c_course_id, c.course_name AS c_course_name FROM default_db.enrollment AS e LEFT JOIN default_db.course AS c ON e.course_id = c.course_id" := by
  rfl

/-- C5 counterexample: a join edge whose `fromTable` (`course`) is
present among the tables but not reachable (it is neither the base
table `enrollment` nor a prior edge's target) is not rejected: a full
query is emitted, so the reachability precondition is not validated. -/
theorem unreachable_from_table_emits_query :
    generate_join_query
      [("enrollment", ["user_id"]), ("course", ["course_id"]), ("login", ["user_id"])]
      "enrollment" [(("course", "login"), "user_id")] =
      Except.ok "SELECT e.user_id AS e_user_id, c.course_id AS c_course_id, l.user_id AS l_user_id FROM default_db.enrollment AS e LEFT JOIN default_db.login AS l ON c.user_id = l.user_id" := by
  rfl

/-- C5 (amended): of the three spec preconditions only the first two
are validated — fewer than two tables and a missing base table raise
`ValueError` with no query emitted; reachability of a join edge's
`fromTable` is not checked, and an unreachable (but present) edge
still yields a full query. -/
theorem generate_join_query_checks :
    (∀ (tc : List (String × List String)) (ft : String)
        (jc : List ((String × String) × String)), tc.length ≤ 1 →
      generate_join_query tc ft jc =
        Except.error "At least two tables are required for a JOIN query.") ∧
    (∀ (tc : List (String × List String)) (ft : String)
        (jc : List ((String × String) × String)),
        1 < tc.length → ft ∉ tc.map Prod.fst →
      generate_join_query tc ft jc =
        Except.error "From table is not in tables list") ∧
    generate_join_query [("a", ["x"]), ("b", ["x"]), ("c", ["x"])] "a"
      [(("b", "c"), "x")] =
      Except.ok "SELECT a.x AS a_x, b.x AS b_x, c.x AS c_x FROM default_db.a AS a LEFT JOIN default_db.c AS c ON b.x = c.x" := by
  refine ⟨fun tc ft jc h => ?_, fun tc ft jc h1 h2 => ?_, ?_⟩
  · unfold generate_join_query
    rw [if_pos h]
  · unfold generate_join_query
    rw [if_neg (by omega), if_pos h2]
  · rfl

/-- Witness for C5: the two validated preconditions at concrete
inputs. -/
theorem generate_join_query_checks_witness :
    generate_join_query [] "enrollment" [] =
      Except.error "At least two tables are required for a JOIN query." ∧
    generate_join_query [("a", ["x"]), ("b", ["y"])] "zzz" [] =
      Except.error "From table is not in tables list" :=
  ⟨generate_join_query_checks.1 [] "enrollment" [] (by decide),
   generate_join_query_checks.2.1 [("a", ["x"]), ("b", ["y"])] "zzz" []
     (by decide) (by decide)⟩

/-- C6: a field named `update_time` or `timestamp` is always assigned
the temporal storage type `DateTime`, whatever the observed dtype; in
particular `update_time` observed as `string` synthesizes to
`DateTime`, both in table creation and in view-table creation. -/
theorem temporal_field_override (d : String) :
    tableField "update_time" d = "update_time DateTime" ∧
    tableField "timestamp" d = "timestamp DateTime" ∧
    viewField "c" "update_time" d = "c_update_time DateTime" ∧
    generate_table_query [("update_time", "string")] "login" (Sum.inl "update_time") =
      "\n        CREATE TABLE IF NOT EXISTS `default_db`.`login` (\n            update_time DateTime\n        ) ENGINE = ReplacingMergeTree(update_time)\n        ORDER BY (update_time)\n        " :=
  ⟨rfl, rfl, rfl, rfl⟩

/-- C7: `get_offset` is total over file states: it returns 0 when the
offset file is absent, when its content is empty after stripping, or
when the stripped content does not parse as a decimal integer; when it
does parse, the parsed integer is returned.  (Totality itself is
inherent: the embedding is a total function, mirroring the source's
catch-all exception handler.) -/
theorem get_offset_total (fs : FS) (file : String) :
    (lookupFile fs file = none → get_offset fs file = 0) ∧
    (∀ s, lookupFile fs file = some s → pyStrip s = "" → get_offset fs file = 0) ∧
    (∀ s, lookupFile fs file = some s → pyStrip s ≠ "" →
      pyParseInt (pyStrip s) = none → get_offset fs file = 0) ∧
    (∀ s n, lookupFile fs file = some s → pyParseInt (pyStrip s) = some n →
      get_offset fs file = n) := by
  refine ⟨fun h => ?_, fun s hs hv => ?_, fun s hs hv hp => ?_, fun s n hs hp => ?_⟩
  · unfold get_offset
    rw [h]
    rfl
  · unfold get_offset
    rw [hs]
    simp only [parseOffset]
    rw [hv]
    simp
  · unfold get_offset
    rw [hs]
    simp only [parseOffset]
    rw [if_neg (by simp [hv]), hp]
    rfl
  · have hne : pyStrip s ≠ "" := by
      intro he
      have h0 : pyParseInt "" = none := rfl
      rw [he, h0] at hp
      exact Option.noConfusion hp
    unfold get_offset
    rw [hs]
    simp only [parseOffset]
    rw [if_neg (by simp [hne]), hp]
    rfl

/-- Witness for C7: absent file, unparsable content and parsable
content with surrounding whitespace. -/
theorem get_offset_total_witness :
    get_offset [] "off" = 0 ∧ get_offset [("off", "abc")] "off" = 0 ∧
    get_offset [("off", " 42\n")] "off" = 42 :=
  ⟨(get_offset_total [] "off").1 rfl,
   (get_offset_total [("off", "abc")] "off").2.2.1 "abc" rfl (by decide) (by decide),
   (get_offset_total [("off", " 42\n")] "off").2.2.2 " 42\n" 42 rfl (by decide)⟩

/-- C8: schema synthesis is total over observed type labels — a field
whose name carries no temporal override and whose observed dtype is
not in `DATATYPE_MAPPING` is assigned the storage type `String`, and
no error is raised (the embedding is a total function). -/
theorem unknown_dtype_string (col d : String)
    (h1 : (col == "update_time" || col == "timestamp") = false)
    (h2 : lookupAssoc DATATYPE_MAPPING d = none) :
    tableField col d = col ++ " String" := by
  unfold tableField
  rw [h1, h2]
  simp only [Bool.false_eq_true, if_false, Option.getD_none]
  rw [str_append_assoc]
  rfl

/-- Witness for C8: a pandas dtype absent from the mapping degrades to
`String`. -/
theorem unknown_dtype_string_witness :
    tableField "price" "complex128" = "price" ++ " String" :=
  unknown_dtype_string "price" "complex128" (by decide) (by decide)

/-- C9: with the offset file absent and a 9-byte log of 3 lines, the
first read returns all 3 lines and persists offset 9 (the total byte
length); an immediate second read returns the empty sequence and the
persisted offset is still 9. -/
theorem first_and_second_read :
    (read_logs OFS [("log", "x1\ny2\nz3\n")] "log" "src" false).1 =
      some ["x1\n", "y2\n", "z3\n"] ∧
    get_offset (read_logs OFS [("log", "x1\ny2\nz3\n")] "log" "src" false).2 "off" = 9 ∧
    (read_logs OFS (read_logs OFS [("log", "x1\ny2\nz3\n")] "log" "src" false).2
      "log" "src" false).1 = some [] ∧
    get_offset (read_logs OFS (read_logs OFS [("log", "x1\ny2\nz3\n")] "log" "src" false).2
      "log" "src" false).2 "off" = 9 := by
  decide

/-- C10: when `OFFSET_FILES` has no entry for the source type, or a
falsy (empty) one, `read_logs` returns `none` before touching the log
file and the file system — in particular every offset file — is left
unchanged, for any log-file state and any failure flag. -/
theorem read_logs_unconfigured_source (ofiles : String → Option String) (fs : FS)
    (file src : String) (b : Bool)
    (h : ofiles src = none ∨ ofiles src = some "") :
    read_logs ofiles fs file src b = (none, fs) := by
  rcases h with h | h
  · unfold read_logs
    rw [h]
  · unfold read_logs
    rw [h]
    simp

/-- Witness for C10: a missing key and an empty configured path both
yield `none` with the file system untouched. -/
theorem read_logs_unconfigured_source_witness :
    read_logs (fun _ => none) [("log", "a\n")] "log" "enrollment" false =
      (none, [("log", "a\n")]) ∧
    read_logs (fun _ => some "") [("log", "a\n")] "log" "enrollment" true =
      (none, [("log", "a\n")]) :=
  ⟨read_logs_unconfigured_source (fun _ => none) [("log", "a\n")] "log" "enrollment"
      false (Or.inl rfl),
   read_logs_unconfigured_source (fun _ => some "") [("log", "a\n")] "log" "enrollment"
      true (Or.inr rfl)⟩
